import Mathlib

/-!
Shallow embedding of the `sqs-sdk-error` repository: an HTTP Lambda handler
that exercises thin wrapper classes around DynamoDB, S3, SQS and SSM, plus
the wrappers themselves.

Modelling conventions: pure data is carried over directly; every effectful
operation is modelled as a pure function of the response(s) the underlying
SDK would deliver, and, where a claim concerns the requests issued, as a
function computing the SDK command(s) the operation sends.  Thrown
exceptions are modelled with `Except`, JavaScript `undefined` with
`Option`, and a JS object with an association list from property name to
value.  `marshall`/`unmarshall` translate between a JS object and its
DynamoDB attribute-value map; on the string-valued records modelled here
this round-trip is the identity, so both are modelled as the identity.
-/

namespace Handler

/-- Body of the HTTP response produced by the handler: the fixed success
text, or the serialised list of caught errors
(`JSON.stringify(errors, null, 2)` keeps the array order, so the body is
modelled by the error list itself). -/
inductive Body (ε : Type) where
  | success : Body ε
  | errors : List ε → Body ε
deriving DecidableEq

/-- The HTTP result of the handler: a status code and a body. -/
structure Response (ε : Type) where
  statusCode : Nat
  body : Body ε
deriving DecidableEq

/-- The Lambda handler (`src/main/handlers/lambda.ts`).  It performs four
service calls in order — `getRecord()`, `TestDao.getTree()`,
`S3Wrapper.createFileInBucket(...)`, `SqsWrapper.writeMessageBatchToFifoQueue(...)` —
each wrapped in its own `try`/`catch` that pushes the caught error onto
`errors`.  Each call is modelled by its outcome: `none` when the call
returns, `some e` when it throws `e`. -/
def handler {ε : Type} (getRecordRes getTreeRes createFileRes writeBatchRes : Option ε) :
    Response ε :=
  let errors : List ε :=
    getRecordRes.toList ++ getTreeRes.toList ++ createFileRes.toList ++ writeBatchRes.toList
  if errors.length > 0 then
    { statusCode := 400, body := Body.errors errors }
  else
    { statusCode := 200, body := Body.success }

end Handler

namespace DynDb

/-- An unmarshalled DynamoDB record: a JS object, modelled as an
association list from attribute name to (string) attribute value. -/
abbrev Item := List (String × String)

/-- A DynamoDB expression attribute value: a string (`S`) or a number
(`N`, transported as a string) as written in the query templates. -/
inductive AttrVal where
  | S : String → AttrVal
  | N : String → AttrVal
deriving DecidableEq

/-- The `'S' | 'N'` key-type parameters of `getItemsWithSKBetween`. -/
inductive KeyType where
  | S : KeyType
  | N : KeyType
deriving DecidableEq

/-- The argument record of `getItemsWithSKBetween`. -/
structure PkSkRange where
  pkVal : String
  skValFrom : String
  skValTo : String
deriving DecidableEq

/-- The part of a `QueryCommand` input that the claims are about. -/
structure QueryCommand where
  tableName : String
  indexName : Option String
  keyConditionExpression : String
  expressionAttributeNames : List (String × String)
  expressionAttributeValues : List (String × AttrVal)
deriving DecidableEq

/-- `DynDb.INDEX_NAME`. -/
def INDEX_NAME : String := "GSI1"

/-- `DynDb.deleteKeyFromItem`: `delete record.PK; delete record.SK;`. -/
def deleteKeyFromItem (record : Item) : Item :=
  record.filter (fun kv => !(kv.1 == "PK" || kv.1 == "SK"))

/-- `DynDb.init`: if a client is already present it is kept; otherwise the
client constructor is run and, when the construction throws, the error is
logged (`console.error`) and the method returns normally with the client
still unset — the `catch` block does not rethrow. -/
def init {κ ε : Type} (ddb : Option κ) (ctorResult : Except ε κ) : Except ε (Option κ) :=
  match ddb with
  | some client => Except.ok (some client)
  | none =>
    match ctorResult with
    | Except.ok client => Except.ok (some client)
    | Except.error _ => Except.ok none

/-- The query command built by `getItemByPK`. -/
def getItemByPKCommand (tableName pkVal : String) : QueryCommand :=
  { tableName := tableName
    indexName := none
    keyConditionExpression := "#PK = :pkVal"
    expressionAttributeNames := [("#PK", "PK")]
    expressionAttributeValues := [(":pkVal", AttrVal.S pkVal)] }

/-- The query command built by `getItemsByPK` (identical template to
`getItemByPK`). -/
def getItemsByPKCommand (tableName pkVal : String) : QueryCommand :=
  { tableName := tableName
    indexName := none
    keyConditionExpression := "#PK = :pkVal"
    expressionAttributeNames := [("#PK", "PK")]
    expressionAttributeValues := [(":pkVal", AttrVal.S pkVal)] }

/-- The query command built by `getItemsWithSKBeginning`. -/
def getItemsWithSKBeginningCommand (tableName pkVal skVal : String) : QueryCommand :=
  { tableName := tableName
    indexName := none
    keyConditionExpression := "#PK = :pkVal AND begins_with(#SK , :skVal)"
    expressionAttributeNames := [("#PK", "PK"), ("#SK", "SK")]
    expressionAttributeValues := [(":pkVal", AttrVal.S pkVal), (":skVal", AttrVal.S skVal)] }

/-- The query command built by `getItemsWithSKBetween`.  The caller may
override the partition/sort attribute names, their types, and the index;
`if (indexName) queryParams.IndexName = indexName` only sets the index for
a truthy (non-empty) string. -/
def getItemsWithSKBetweenCommand (tableName : String) (keyVals : PkSkRange)
    (partitionKeyName sortKeyName : String) (partitionKeyType sortKeyType : KeyType)
    (indexName : Option String) : QueryCommand :=
  { tableName := tableName
    indexName :=
      match indexName with
      | none => none
      | some s => if s == "" then none else some s
    keyConditionExpression := "#PK = :pkVal AND #SK BETWEEN :skValFrom AND :skValTo"
    expressionAttributeNames := [("#PK", partitionKeyName), ("#SK", sortKeyName)]
    expressionAttributeValues :=
      (match partitionKeyType with
        | KeyType.N => [(":pkVal", AttrVal.N keyVals.pkVal)]
        | KeyType.S => [(":pkVal", AttrVal.S keyVals.pkVal)]) ++
      (match sortKeyType with
        | KeyType.N => [(":skValFrom", AttrVal.N keyVals.skValFrom),
                        (":skValTo", AttrVal.N keyVals.skValTo)]
        | KeyType.S => [(":skValFrom", AttrVal.S keyVals.skValFrom),
                        (":skValTo", AttrVal.S keyVals.skValTo)]) }

/-- The query command built by `getItemBySK`: queries the `GSI1` index. -/
def getItemBySKCommand (tableName skVal : String) : QueryCommand :=
  { tableName := tableName
    indexName := some INDEX_NAME
    keyConditionExpression := "#SK = :skVal"
    expressionAttributeNames := [("#SK", "SK")]
    expressionAttributeValues := [(":skVal", AttrVal.S skVal)] }

/-- The query command built by `getAllByPKPrefixAndSK`: queries `GSI1`. -/
def getAllByPKPrefixAndSKCommand (tableName pkPref skVal : String) : QueryCommand :=
  { tableName := tableName
    indexName := some INDEX_NAME
    keyConditionExpression := "#SK = :skVal and begins_with(#PK, :pkPrefix)"
    expressionAttributeNames := [("#SK", "SK"), ("#PK", "PK")]
    expressionAttributeValues := [(":skVal", AttrVal.S skVal), (":pkPref" ++ "ix", AttrVal.S pkPref)] }

/-- Post-processing of a `GetItemCommand` response by `getItem`: when the
response carries an item it is unmarshalled and the key attributes are
stripped; otherwise `undefined` is returned. -/
def getItemResult (item : Option Item) : Option Item :=
  match item with
  | some it => some (deleteKeyFromItem it)
  | none => none

/-- Post-processing of the query response by `getItemByPK`: `undefined` on
an empty result, an exception when more than one item matches, and the
(key-stripped) single item otherwise. -/
def getItemByPKResult (pkVal : String) (items : List Item) : Except String (Option Item) :=
  if items.isEmpty then Except.ok none
  else if items.length > 1 then
    Except.error ("Multiple items (" ++ toString items.length ++ ") found with PK '" ++ pkVal ++ "'")
  else Except.ok (items.head?.map deleteKeyFromItem)

/-- Post-processing of the query response by `getItemsByPK`: the items are
unmarshalled and returned as they are — no key stripping. -/
def getItemsByPKResult (items : List Item) : List Item :=
  if items.isEmpty then [] else items

/-- Post-processing of the query response by `getItemsWithSKBeginning`:
unmarshalled items, no key stripping. -/
def getItemsWithSKBeginningResult (items : List Item) : List Item :=
  if items.isEmpty then [] else items

/-- Post-processing of the query response by `getItemsWithSKBetween`:
unmarshalled items, no key stripping. -/
def getItemsWithSKBetweenResult (items : List Item) : List Item :=
  if items.isEmpty then [] else items

/-- Post-processing of the query response by `getItemBySK`: `undefined` on
an empty result, otherwise the first item with its key attributes
stripped. -/
def getItemBySKResult (items : List Item) : Option Item :=
  match items.head? with
  | none => none
  | some it => some (deleteKeyFromItem it)

/-- Post-processing of the query response by `getAllByPKPrefixAndSK`: every
item is unmarshalled and key-stripped; a missing `Items` field yields `[]`. -/
def getAllByPKPrefixAndSKResult (items : Option (List Item)) : List Item :=
  match items with
  | none => []
  | some l => l.map deleteKeyFromItem

/-- A record is key-free when it carries neither a `PK` nor an `SK`
attribute. -/
def keyFree (record : Item) : Prop :=
  ∀ kv ∈ record, ¬(kv.1 = "PK" ∨ kv.1 = "SK")

instance (record : Item) : Decidable (keyFree record) :=
  inferInstanceAs (Decidable (∀ kv ∈ record, ¬(kv.1 = "PK" ∨ kv.1 = "SK")))

/-- The `GetItemCommand` / `PutItemCommand` / `DeleteItemCommand` shape:
a table name plus a marshalled key or item. -/
structure ItemCommand where
  tableName : String
  payload : Item
deriving DecidableEq

/-- The commands sent by one call of `putItem`: a single `PutItemCommand`. -/
def putItemCommands (tableName : String) (item : Item) : List ItemCommand :=
  [{ tableName := tableName, payload := item }]

/-- The commands sent by one call of `getItem`: a single `GetItemCommand`. -/
def getItemCommands (tableName : String) (key : Item) : List ItemCommand :=
  [{ tableName := tableName, payload := key }]

/-- The commands sent by one call of `deleteItem`: a single
`DeleteItemCommand`. -/
def deleteItemCommands (tableName : String) (key : Item) : List ItemCommand :=
  [{ tableName := tableName, payload := key }]

/-- The commands sent by one call of a query-based accessor (`getItemByPK`,
`getItemsByPK`, `getItemsWithSKBeginning`, `getItemsWithSKBetween`,
`getItemBySK`, `getAllByPKPrefixAndSK`): each builds one `QueryCommand` and
sends it once. -/
def queryCommands (cmd : QueryCommand) : List QueryCommand :=
  [cmd]

end DynDb

namespace SqsWrapper

/-- An element of the `messages` argument of
`writeMessageBatchToFifoQueue`. -/
structure MessageAndGroupId where
  groupId : String
  message : String
deriving DecidableEq

/-- A `SendMessageBatchRequestEntry`. -/
structure BatchEntry where
  entryId : String
  messageBody : String
  messageGroupId : String
deriving DecidableEq

/-- A `SendMessageBatchCommand`. -/
structure BatchCommand where
  entries : List BatchEntry
  queueUrl : String
deriving DecidableEq

/-- A `SendMessageCommand`. -/
structure SendCommand where
  messageBody : String
  queueUrl : String
  messageGroupId : Option String
deriving DecidableEq

/-- Fuel-indexed worker for `chunk`: repeatedly takes the first `n`
elements.  The fuel is an upper bound on the number of chunks; `chunk`
supplies `l.length`, which suffices whenever `n ≥ 1`. -/
def chunkGo (n : Nat) : Nat → List α → List (List α)
  | _, [] => []
  | 0, _ => []
  | fuel + 1, l => l.take n :: chunkGo n fuel (l.drop n)

/-- lodash `chunk(array, size)`: splits `l` into consecutive groups of `n`
elements, the final group holding the remainder; `chunk(array, 0)` is `[]`. -/
def chunk (n : Nat) (l : List α) : List (List α) :=
  if n = 0 then [] else chunkGo n l.length l

/-- The batch entries built for one chunk: `Id: msg-0, msg-1, ...` in chunk
order, with each entry carrying the message body and group id. -/
def batchEntries (msgChunk : List MessageAndGroupId) : List BatchEntry :=
  msgChunk.enum.map (fun p =>
    { entryId := "msg-" ++ toString p.1
      messageBody := p.2.message
      messageGroupId := p.2.groupId })

/-- `SqsWrapper.writeMessageBatchToFifoQueue`, modelled as the list of
`SendMessageBatchCommand`s it sends, in send order: the messages are split
into chunks of 10 and one batch command is sent per chunk. -/
def writeMessageBatchToFifoQueue (queueUrl : String) (messages : List MessageAndGroupId) :
    List BatchCommand :=
  (chunk 10 messages).map (fun msgChunk =>
    { entries := batchEntries msgChunk, queueUrl := queueUrl })

/-- `SqsWrapper.writeMessageToQueue`, modelled as the list of
`SendMessageCommand`s it sends: exactly one. -/
def writeMessageToQueueCommands (queueUrl message : String) (groupId : Option String) :
    List SendCommand :=
  [{ messageBody := message, queueUrl := queueUrl, messageGroupId := groupId }]

end SqsWrapper

namespace S3Wrapper

/-- The part of an S3 `_Object` the claims are about: `Key` and
`LastModified` (a date, modelled as its epoch value) are both optional. -/
structure S3Object where
  key : Option String
  lastModified : Option Nat
deriving DecidableEq

/-- The characters of `sub` occur consecutively at the front of `s`. -/
def leadsWith : List Char → List Char → Bool
  | [], _ => true
  | _ :: _, [] => false
  | c :: cs, d :: ds => c == d && leadsWith cs ds

/-- The characters of `sub` occur consecutively somewhere in `s`. -/
def occursIn (sub : List Char) : List Char → Bool
  | [] => leadsWith sub []
  | c :: rest => leadsWith sub (c :: rest) || occursIn sub rest

/-- JS `String.prototype.includes`: substring containment. -/
def jsIncludes (s sub : String) : Bool :=
  occursIn sub.data s.data

/-- `filterResultsFiles`: keeps a file only when it has a `Key` that does
not contain the excluded text. -/
def filterResultsFiles (excludeFilenamesContaining : String) (file : S3Object) : Bool :=
  match file.key with
  | none => false
  | some k => !(jsIncludes k excludeFilenamesContaining)

/-- `sortFilesByDate`: the comparator handed to `Array.prototype.sort`;
`0` when either date is missing, else `-1` when the left date is later. -/
def sortFilesByDate (left right : S3Object) : Int :=
  match left.lastModified, right.lastModified with
  | some l, some r => if l > r then -1 else 1
  | _, _ => 0

/-- Insertion step of the stable-sort model of `Array.prototype.sort`:
`x` (originally before every element of the already-sorted list, since the
sort folds from the right) goes before the first element `h` it need not
follow, i.e. with `cmp x h ≤ 0`. -/
def sortInsert (cmp : α → α → Int) (x : α) : List α → List α
  | [] => [x]
  | h :: t => if cmp x h ≤ 0 then x :: h :: t else h :: sortInsert cmp x t

/-- Stable-sort model of `Array.prototype.sort(cmp)` (ECMAScript mandates a
stable sort). -/
def jsSort (cmp : α → α → Int) : List α → List α
  | [] => []
  | h :: t => sortInsert cmp h (jsSort cmp t)

/-- `left` was modified at least as recently as `right`, a missing date
counting as the epoch: the order `retrieveSortedFileList` is meant to
deliver, most recent first. -/
def laterOrEq (left right : S3Object) : Prop :=
  right.lastModified.getD 0 ≤ left.lastModified.getD 0

instance (left right : S3Object) : Decidable (laterOrEq left right) :=
  inferInstanceAs (Decidable (right.lastModified.getD 0 ≤ left.lastModified.getD 0))

/-- `S3Wrapper.retrieveSortedFileList`, modelled on the `Contents` field of
the single `ListObjectsV2` response: filters with
`filterResultsFiles('result_')` and sorts with `sortFilesByDate`. -/
def retrieveSortedFileList (contents : Option (List S3Object)) : Option (List S3Object) :=
  match contents with
  | none => none
  | some files => some (jsSort sortFilesByDate (files.filter (filterResultsFiles "result_")))

/-- One `ListObjectsV2` response page. -/
structure Page where
  isTruncated : Bool
  nextContinuationToken : Option String
  contents : List S3Object
deriving DecidableEq

/-- The keys collected from one page: every `Contents` entry that has a
`Key`. -/
def pageKeys (p : Page) : List String :=
  p.contents.filterMap (fun f => f.key)

/-- The request/response loop of `getListOfFileKeys`.  `token` is the
`ContinuationToken` of the next request (the command object is built once
and holds the request parameters by reference, so mutating
`listObjectsParams.ContinuationToken` updates the next send); the list of
pages is what the service would deliver to the successive requests.  The
result pairs the accumulated keys with the continuation tokens of the
requests actually sent, one per consumed page; `none` marks the unmodelled
situation in which the loop is still truncated after the supplied pages run
out. -/
def listLoop (token : Option String) : List Page → Option (List String × List (Option String))
  | [] => none
  | p :: rest =>
    if p.isTruncated then
      match listLoop p.nextContinuationToken rest with
      | none => none
      | some (keys, tokens) => some (pageKeys p ++ keys, token :: tokens)
    else
      some (pageKeys p, [token])

/-- `S3Wrapper.getListOfFileKeys`: the loop starts with no continuation
token. -/
def getListOfFileKeys (pages : List Page) : Option (List String × List (Option String)) :=
  listLoop none pages

/-- `S3Wrapper.createFileInBucket`: the `catch` block logs and rethrows the
error unchanged, so the call is a passthrough of the `PutObject` send. -/
def createFileInBucket {ε ρ : Type} (sendResult : Except ε ρ) : Except ε ρ :=
  match sendResult with
  | Except.ok out => Except.ok out
  | Except.error err => Except.error err

/-- A `PutObjectCommand`. -/
structure PutObjectCommand where
  bucket : String
  key : String
  body : String
  contentType : String
  contentEncoding : Option String
deriving DecidableEq

/-- The commands sent by one call of `createFileInBucket`: a single
`PutObjectCommand`. -/
def createFileInBucketCommands (bucket contents filename contentType : String)
    (encoding : Option String) : List PutObjectCommand :=
  [{ bucket := bucket, key := filename, body := contents,
     contentType := contentType, contentEncoding := encoding }]

/-- A `ListObjectsV2Command` input (the fields `retrieveSortedFileList`
sets). -/
structure ListObjectsCommand where
  bucket : String
deriving DecidableEq

/-- The commands sent by one call of `retrieveSortedFileList`: a single
`ListObjectsV2Command`. -/
def retrieveSortedFileListCommands (bucket : String) : List ListObjectsCommand :=
  [{ bucket := bucket }]

end S3Wrapper

namespace SsmWrapper

/-- The nano-cache state: an association list from parameter name to the
stored value (`cache.set` may store `undefined`, and `cache.get` of an
absent key also yields a falsy value, so stored values are `Option`s). -/
abbrev Cache := List (String × Option String)

/-- `cache.get`: the most recently stored value for the name, flattened
with the absent case. -/
def cacheGet (cache : Cache) (paramName : String) : Option String :=
  match cache.lookup paramName with
  | some v => v
  | none => none

/-- `cache.set`: stores the value for the name. -/
def cacheSet (cache : Cache) (paramName : String) (value : Option String) : Cache :=
  (paramName, value) :: cache

/-- JS truthiness of a `string | undefined`: `undefined` and the empty
string are falsy. -/
def jsTruthy (value : Option String) : Bool :=
  match value with
  | none => false
  | some s => s ≠ ""

/-- `SsmWrapper.getParam`, modelled as a function of the cache state and of
the outcome the SSM SDK would deliver to a `GetParameterCommand`
(`Except.error` models a throw; `Except.ok v` models a response whose
`Parameter?.Value` is `v`).  The result carries the returned value, the
cache state after the call, and the number of SDK requests made.  A truthy
cached value is returned without any request; otherwise the value is
fetched once and stored; a fetch error is logged and rethrown unchanged. -/
def getParam (cache : Cache) (fetch : Except String (Option String)) (paramName : String) :
    Except String (Option String × Cache × Nat) :=
  let value := cacheGet cache paramName
  if jsTruthy value then Except.ok (value, cache, 0)
  else
    match fetch with
    | Except.error err => Except.error err
    | Except.ok fetched => Except.ok (fetched, cacheSet cache paramName fetched, 1)

end SsmWrapper

/-! ## Helper lemmas -/

lemma keyFree_deleteKeyFromItem (record : DynDb.Item) :
    DynDb.keyFree (DynDb.deleteKeyFromItem record) := by
  intro kv hkv
  have h := List.of_mem_filter hkv
  simp at h
  tauto

lemma passthroughIf_eq (items : List DynDb.Item) :
    (if items.isEmpty then [] else items) = items := by
  cases items <;> simp

lemma chunkGo_nil (n fuel : Nat) : SqsWrapper.chunkGo n fuel ([] : List α) = [] := by
  cases fuel <;> rfl

lemma chunkGo_cons (n fuel : Nat) (x : α) (xs : List α) :
    SqsWrapper.chunkGo n (fuel + 1) (x :: xs) =
      (x :: xs).take n :: SqsWrapper.chunkGo n fuel ((x :: xs).drop n) := rfl

lemma chunkGo_length_le (n : Nat) :
    ∀ (fuel : Nat) (l : List α), ∀ c ∈ SqsWrapper.chunkGo n fuel l, c.length ≤ n := by
  intro fuel
  induction fuel with
  | zero =>
    intro l c hc
    cases l <;> simp [SqsWrapper.chunkGo] at hc
  | succ fuel ih =>
    intro l c hc
    cases l with
    | nil => simp [chunkGo_nil] at hc
    | cons x xs =>
      rw [chunkGo_cons] at hc
      rcases List.mem_cons.mp hc with rfl | hc
      · simp [List.length_take]
      · exact ih _ c hc

lemma chunkGo_flatten (n : Nat) (hn : 1 ≤ n) :
    ∀ (fuel : Nat) (l : List α), l.length ≤ fuel →
      (SqsWrapper.chunkGo n fuel l).flatten = l := by
  intro fuel
  induction fuel with
  | zero =>
    intro l hl
    have : l = [] := by cases l <;> simp_all
    subst this
    rfl
  | succ fuel ih =>
    intro l hl
    cases l with
    | nil => rfl
    | cons x xs =>
      rw [List.length_cons] at hl
      have hfuel : ((x :: xs).drop n).length ≤ fuel := by
        rw [List.length_drop, List.length_cons]
        omega
      rw [chunkGo_cons, List.flatten_cons, ih _ hfuel]
      exact List.take_append_drop n (x :: xs)

lemma chunkGo_dropLast_full (n : Nat) (hn : 1 ≤ n) :
    ∀ (fuel : Nat) (l : List α), l.length ≤ fuel →
      ∀ c ∈ (SqsWrapper.chunkGo n fuel l).dropLast, c.length = n := by
  intro fuel
  induction fuel with
  | zero =>
    intro l hl c hc
    have : l = [] := by cases l <;> simp_all
    subst this
    simp [chunkGo_nil] at hc
  | succ fuel ih =>
    intro l hl c hc
    cases l with
    | nil => simp [chunkGo_nil] at hc
    | cons x xs =>
      rw [chunkGo_cons] at hc
      rw [List.length_cons] at hl
      rcases hrest : SqsWrapper.chunkGo n fuel ((x :: xs).drop n) with _ | ⟨r, rs⟩
      · rw [hrest] at hc
        simp at hc
      · rw [hrest] at hc
        have hdrop : (x :: xs).drop n ≠ [] := by
          intro hnil
          rw [hnil, chunkGo_nil] at hrest
          exact List.noConfusion hrest
        have hlong : n < xs.length + 1 := by
          by_contra hle
          exact hdrop (List.drop_eq_nil_of_le (by rw [List.length_cons]; omega))
        rcases List.mem_cons.mp (by
            simpa [List.dropLast_cons₂] using hc) with rfl | hc2
        · rw [List.length_take, List.length_cons]
          omega
        · rw [← hrest] at hc2
          have hfuel : ((x :: xs).drop n).length ≤ fuel := by
            rw [List.length_drop, List.length_cons]
            omega
          exact ih _ hfuel c hc2

lemma chunkGo_length_eq (n : Nat) (hn : 1 ≤ n) :
    ∀ (fuel : Nat) (l : List α), l.length ≤ fuel →
      (SqsWrapper.chunkGo n fuel l).length = (l.length + (n - 1)) / n := by
  intro fuel
  induction fuel with
  | zero =>
    intro l hl
    have : l = [] := by cases l <;> simp_all
    subst this
    simp [chunkGo_nil]
    exact (Nat.div_eq_of_lt (by omega)).symm
  | succ fuel ih =>
    intro l hl
    cases l with
    | nil =>
      simp [chunkGo_nil]
      exact (Nat.div_eq_of_lt (by omega)).symm
    | cons x xs =>
      rw [List.length_cons] at hl
      have hfuel : ((x :: xs).drop n).length ≤ fuel := by
        rw [List.length_drop, List.length_cons]
        omega
      rw [chunkGo_cons]
      simp only [List.length_cons]
      rw [ih _ hfuel, List.length_drop, List.length_cons]
      have h2 : xs.length + 1 + (n - 1) = (xs.length + 1 - 1) + n := by omega
      rw [h2, Nat.add_div_right _ (by omega)]
      rcases le_or_lt (xs.length + 1) n with hle | hgt
      · have e0 : xs.length + 1 - n = 0 := by omega
        rw [e0]
        rw [Nat.div_eq_of_lt (show 0 + (n - 1) < n by omega),
          Nat.div_eq_of_lt (show xs.length + 1 - 1 < n by omega)]
      · have e1 : xs.length + 1 - n + (n - 1) = xs.length + 1 - 1 := by omega
        rw [e1]

lemma chunk_flatten (n : Nat) (hn : 1 ≤ n) (l : List α) :
    (SqsWrapper.chunk n l).flatten = l := by
  unfold SqsWrapper.chunk
  rw [if_neg (by omega)]
  exact chunkGo_flatten n hn l.length l le_rfl

lemma chunk_length_le (n : Nat) (l : List α) :
    ∀ c ∈ SqsWrapper.chunk n l, c.length ≤ n := by
  intro c hc
  unfold SqsWrapper.chunk at hc
  split at hc
  · simp at hc
  · exact chunkGo_length_le n l.length l c hc

lemma chunk_dropLast_full (n : Nat) (hn : 1 ≤ n) (l : List α) :
    ∀ c ∈ (SqsWrapper.chunk n l).dropLast, c.length = n := by
  intro c hc
  unfold SqsWrapper.chunk at hc
  rw [if_neg (by omega)] at hc
  exact chunkGo_dropLast_full n hn l.length l le_rfl c hc

lemma chunk_length_eq (n : Nat) (hn : 1 ≤ n) (l : List α) :
    (SqsWrapper.chunk n l).length = (l.length + (n - 1)) / n := by
  unfold SqsWrapper.chunk
  rw [if_neg (by omega)]
  exact chunkGo_length_eq n hn l.length l le_rfl

lemma getParam_eq (cache : SsmWrapper.Cache) (fetch : Except String (Option String))
    (paramName : String) :
    SsmWrapper.getParam cache fetch paramName =
      (if SsmWrapper.jsTruthy (SsmWrapper.cacheGet cache paramName) then
        Except.ok (SsmWrapper.cacheGet cache paramName, cache, 0)
      else
        match fetch with
        | Except.error err => Except.error err
        | Except.ok fetched =>
          Except.ok (fetched, SsmWrapper.cacheSet cache paramName fetched, 1)) := rfl

lemma listLoop_cons (token : Option String) (p : S3Wrapper.Page)
    (rest : List S3Wrapper.Page) :
    S3Wrapper.listLoop token (p :: rest) =
      (if p.isTruncated then
        match S3Wrapper.listLoop p.nextContinuationToken rest with
        | none => none
        | some (keys, tokens) => some (S3Wrapper.pageKeys p ++ keys, token :: tokens)
      else some (S3Wrapper.pageKeys p, [token])) := rfl

/-- On a well-formed pagination sequence — every page but the last
truncated, the last one not — the listing loop consumes every page,
accumulates all their keys, and sends one request per page, threading each
response's continuation token into the next request. -/
lemma listLoop_paginated :
    ∀ (pages : List S3Wrapper.Page) (token : Option String)
      (lastPage : S3Wrapper.Page),
      (∀ p ∈ pages.dropLast, p.isTruncated = true) →
      pages.getLast? = some lastPage → lastPage.isTruncated = false →
      S3Wrapper.listLoop token pages =
        some ((pages.map S3Wrapper.pageKeys).flatten,
          token :: pages.dropLast.map (fun p => p.nextContinuationToken)) := by
  intro pages
  induction pages with
  | nil =>
    intro token lastPage _ hlast _
    exact absurd hlast (by simp)
  | cons p rest ih =>
    intro token lastPage htr hlast hfin
    cases rest with
    | nil =>
      have hp : p.isTruncated = false := by
        simp at hlast
        rw [hlast]
        exact hfin
      rw [listLoop_cons, hp]
      simp
    | cons q qs =>
      have hp : p.isTruncated = true :=
        htr p (by rw [List.dropLast_cons₂]; exact List.mem_cons_self _ _)
      have hrest := ih p.nextContinuationToken lastPage
        (fun r hr => htr r (by rw [List.dropLast_cons₂]; exact List.mem_cons_of_mem _ hr))
        (by rw [← List.getLast?_cons_cons]; exact hlast) hfin
      rw [listLoop_cons, hp, if_pos rfl, hrest]
      simp [List.dropLast_cons₂]

lemma batchEntries_bodies (c : List SqsWrapper.MessageAndGroupId) :
    (SqsWrapper.batchEntries c).map (fun en => en.messageBody) =
      c.map (fun m => m.message) := by
  unfold SqsWrapper.batchEntries
  rw [List.map_map]
  have h : ((fun en : SqsWrapper.BatchEntry => en.messageBody) ∘
      (fun p : Nat × SqsWrapper.MessageAndGroupId =>
        ({ entryId := "msg-" ++ toString p.1
           messageBody := p.2.message
           messageGroupId := p.2.groupId } : SqsWrapper.BatchEntry))) =
      (fun m : SqsWrapper.MessageAndGroupId => m.message) ∘ Prod.snd := rfl
  rw [h, ← List.map_map, List.enum_map_snd]

lemma sortInsert_perm (cmp : α → α → Int) (x : α) (l : List α) :
    (S3Wrapper.sortInsert cmp x l).Perm (x :: l) := by
  induction l with
  | nil => exact List.Perm.refl _
  | cons h t ih =>
    unfold S3Wrapper.sortInsert
    by_cases hc : cmp x h ≤ 0
    · rw [if_pos hc]
    · rw [if_neg hc]
      exact (ih.cons h).trans (List.Perm.swap x h t)

lemma jsSort_perm (cmp : α → α → Int) (l : List α) :
    (S3Wrapper.jsSort cmp l).Perm l := by
  induction l with
  | nil => exact List.Perm.refl _
  | cons h t ih => exact (sortInsert_perm cmp h (S3Wrapper.jsSort cmp t)).trans (ih.cons h)

lemma sortInsert_pairwise (x : S3Wrapper.S3Object) (l : List S3Wrapper.S3Object)
    (hx : x.lastModified.isSome = true)
    (hl : ∀ f ∈ l, f.lastModified.isSome = true)
    (hp : l.Pairwise S3Wrapper.laterOrEq) :
    (S3Wrapper.sortInsert S3Wrapper.sortFilesByDate x l).Pairwise S3Wrapper.laterOrEq := by
  induction l with
  | nil => exact List.pairwise_singleton _ _
  | cons h t ih =>
    obtain ⟨dx, hdx⟩ := Option.isSome_iff_exists.mp hx
    obtain ⟨dh, hdh⟩ := Option.isSome_iff_exists.mp (hl h (List.mem_cons_self _ _))
    have hpc := List.pairwise_cons.mp hp
    unfold S3Wrapper.sortInsert
    by_cases hc : S3Wrapper.sortFilesByDate x h ≤ 0
    · have hgt : dh < dx := by
        unfold S3Wrapper.sortFilesByDate at hc
        rw [hdx, hdh] at hc
        have hc2 : (if dx > dh then (-1 : Int) else 1) ≤ 0 := hc
        by_contra hle
        rw [if_neg (by omega)] at hc2
        omega
      rw [if_pos hc]
      apply List.pairwise_cons.mpr
      refine ⟨?_, hp⟩
      intro y hy
      rcases List.mem_cons.mp hy with rfl | hyt
      · unfold S3Wrapper.laterOrEq
        rw [hdx, hdh]
        simp
        omega
      · have hhy := hpc.1 y hyt
        unfold S3Wrapper.laterOrEq at hhy ⊢
        rw [hdx]
        rw [hdh] at hhy
        simp at hhy ⊢
        omega
    · have hle : dx ≤ dh := by
        unfold S3Wrapper.sortFilesByDate at hc
        rw [hdx, hdh] at hc
        have hc2 : ¬((if dx > dh then (-1 : Int) else 1) ≤ 0) := hc
        by_contra hlt
        rw [if_pos (by omega)] at hc2
        omega
      rw [if_neg hc]
      apply List.pairwise_cons.mpr
      constructor
      · intro y hy
        rcases List.mem_cons.mp
            ((sortInsert_perm S3Wrapper.sortFilesByDate x t).mem_iff.mp hy) with rfl | hyt
        · unfold S3Wrapper.laterOrEq
          rw [hdx, hdh]
          simp
          omega
        · exact hpc.1 y hyt
      · exact ih (fun f hf => hl f (List.mem_cons_of_mem _ hf)) hpc.2

lemma jsSort_pairwise (l : List S3Wrapper.S3Object)
    (hl : ∀ f ∈ l, f.lastModified.isSome = true) :
    (S3Wrapper.jsSort S3Wrapper.sortFilesByDate l).Pairwise S3Wrapper.laterOrEq := by
  induction l with
  | nil => exact List.Pairwise.nil
  | cons h t ih =>
    exact sortInsert_pairwise h (S3Wrapper.jsSort S3Wrapper.sortFilesByDate t)
      (hl h (List.mem_cons_self _ _))
      (fun f hf => hl f (List.mem_cons_of_mem _
        ((jsSort_perm S3Wrapper.sortFilesByDate t).subset hf)))
      (ih (fun f hf => hl f (List.mem_cons_of_mem _ hf)))

/-! ## Claims -/

/-- C1: if all four service calls (the raw key-value get, the table-model
get, the object-store put, and the queue batch send) return without
throwing, the handler returns status 200; otherwise it returns status 400
with a body serialising every thrown error, appended in the order the
calls were made. -/
theorem C1_handler_aggregates_errors {ε : Type} (r1 r2 r3 r4 : Option ε) :
    ((Handler.handler r1 r2 r3 r4).statusCode = 200 ↔
      r1 = none ∧ r2 = none ∧ r3 = none ∧ r4 = none)
    ∧ (¬(r1 = none ∧ r2 = none ∧ r3 = none ∧ r4 = none) →
        Handler.handler r1 r2 r3 r4 =
          { statusCode := 400,
            body := Handler.Body.errors
              (r1.toList ++ r2.toList ++ r3.toList ++ r4.toList) }) := by
  cases r1 <;> cases r2 <;> cases r3 <;> cases r4 <;>
    simp [Handler.handler]

/-- Closed instance of `C1_handler_aggregates_errors`: with the first and
fourth calls throwing, the handler returns 400 and both errors in call
order. -/
theorem C1_handler_aggregates_errors_witness :
    Handler.handler (some "e1") (none : Option String) none (some "e4") =
      { statusCode := 400, body := Handler.Body.errors ["e1", "e4"] } := by
  have h := (C1_handler_aggregates_errors (some "e1") (none : Option String) none
    (some "e4")).2 (by simp)
  simpa using h

/-- C2 as stated is false: `getItemsByPK` returns its records without
removing the `PK`/`SK` key attributes. -/
theorem C2_counterexample :
    ∃ r ∈ DynDb.getItemsByPKResult [[("PK", "p"), ("SK", "s"), ("deviceId", "d1")]],
      ("PK", "p") ∈ r := by decide

/-- C2 amended: `getItem`, `getItemByPK`, `getItemBySK` and
`getAllByPKPrefixAndSK` strip the key attributes `PK` and `SK` from every
record they return, while `getItemsByPK`, `getItemsWithSKBeginning` and
`getItemsWithSKBetween` return the queried records unmodified, key
attributes included. -/
theorem C2_amended_key_stripping (pkVal : String) (item : DynDb.Item)
    (items : List DynDb.Item) :
    (∀ r, DynDb.getItemResult (some item) = some r → DynDb.keyFree r)
    ∧ (∀ r, DynDb.getItemByPKResult pkVal items = Except.ok (some r) → DynDb.keyFree r)
    ∧ (∀ r, DynDb.getItemBySKResult items = some r → DynDb.keyFree r)
    ∧ (∀ r ∈ DynDb.getAllByPKPrefixAndSKResult (some items), DynDb.keyFree r)
    ∧ DynDb.getItemsByPKResult items = items
    ∧ DynDb.getItemsWithSKBeginningResult items = items
    ∧ DynDb.getItemsWithSKBetweenResult items = items := by
  refine ⟨?_, ?_, ?_, ?_, passthroughIf_eq items, passthroughIf_eq items,
    passthroughIf_eq items⟩
  · intro r h
    simp [DynDb.getItemResult] at h
    exact h ▸ keyFree_deleteKeyFromItem item
  · intro r h
    unfold DynDb.getItemByPKResult at h
    split at h
    · simp at h
    · split at h
      · simp at h
      · cases hh : items.head? with
        | none => rw [hh] at h; simp at h
        | some it =>
          rw [hh] at h
          simp at h
          exact h ▸ keyFree_deleteKeyFromItem it
  · intro r h
    unfold DynDb.getItemBySKResult at h
    cases hh : items.head? with
    | none => rw [hh] at h; simp at h
    | some it =>
      rw [hh] at h
      simp at h
      exact h ▸ keyFree_deleteKeyFromItem it
  · intro r hr
    simp [DynDb.getAllByPKPrefixAndSKResult] at hr
    obtain ⟨it, _, rfl⟩ := hr
    exact keyFree_deleteKeyFromItem it

/-- Closed instance of `C2_amended_key_stripping`: a stripped single-item
read and an unmodified multi-item read. -/
theorem C2_amended_key_stripping_witness :
    DynDb.keyFree [("deviceId", "d1")]
    ∧ DynDb.getItemsByPKResult [[("PK", "p")]] = [[("PK", "p")]] := by
  constructor
  · exact (C2_amended_key_stripping "p" [("PK", "p"), ("deviceId", "d1")] []).1
      [("deviceId", "d1")] (by decide)
  · exact (C2_amended_key_stripping "p" [] [[("PK", "p")]]).2.2.2.2.1

/-- C4: every hard-coded query addresses the partition key as `PK` and the
sort key as `SK`; the two sort-key-first lookups (`getItemBySK`,
`getAllByPKPrefixAndSK`) query the single secondary index `GSI1`; the
other fixed queries use no index; and only `getItemsWithSKBetween` lets
the caller override the attribute names and the index. -/
theorem C4_key_schema_and_index (tableName pkVal skVal pkPref pName sName idxName : String)
    (keyVals : DynDb.PkSkRange) (pkType skType : DynDb.KeyType) :
    DynDb.INDEX_NAME = "GSI1"
    ∧ (DynDb.getItemByPKCommand tableName pkVal).expressionAttributeNames = [("#PK", "PK")]
    ∧ (DynDb.getItemByPKCommand tableName pkVal).indexName = none
    ∧ (DynDb.getItemsByPKCommand tableName pkVal).expressionAttributeNames = [("#PK", "PK")]
    ∧ (DynDb.getItemsByPKCommand tableName pkVal).indexName = none
    ∧ (DynDb.getItemsWithSKBeginningCommand tableName pkVal skVal).expressionAttributeNames =
        [("#PK", "PK"), ("#SK", "SK")]
    ∧ (DynDb.getItemsWithSKBeginningCommand tableName pkVal skVal).indexName = none
    ∧ (DynDb.getItemBySKCommand tableName skVal).expressionAttributeNames = [("#SK", "SK")]
    ∧ (DynDb.getItemBySKCommand tableName skVal).indexName = some DynDb.INDEX_NAME
    ∧ (DynDb.getAllByPKPrefixAndSKCommand tableName pkPref skVal).expressionAttributeNames =
        [("#SK", "SK"), ("#PK", "PK")]
    ∧ (DynDb.getAllByPKPrefixAndSKCommand tableName pkPref skVal).indexName =
        some DynDb.INDEX_NAME
    ∧ (DynDb.getItemsWithSKBetweenCommand tableName keyVals "PK" "SK" pkType skType
        none).expressionAttributeNames = [("#PK", "PK"), ("#SK", "SK")]
    ∧ (DynDb.getItemsWithSKBetweenCommand tableName keyVals "PK" "SK" pkType skType
        none).indexName = none
    ∧ (DynDb.getItemsWithSKBetweenCommand tableName keyVals pName sName pkType skType
        (some idxName)).expressionAttributeNames = [("#PK", pName), ("#SK", sName)]
    ∧ (DynDb.getItemsWithSKBetweenCommand tableName keyVals pName sName pkType skType
        (some idxName)).indexName = (if idxName = "" then none else some idxName) := by
  refine ⟨rfl, rfl, rfl, rfl, rfl, rfl, rfl, rfl, rfl, rfl, rfl, rfl, rfl, rfl, ?_⟩
  simp [DynDb.getItemsWithSKBetweenCommand]

/-- C6 as stated is false: `DynDb.init` catches a client-construction
failure, logs it, and returns normally (with the client unset) instead of
rethrowing it. -/
theorem C6_counterexample :
    DynDb.init (none : Option Unit) (Except.error "client construction failure")
      = Except.ok none
    ∧ DynDb.init (none : Option Unit) (Except.error "client construction failure")
      ≠ Except.error "client construction failure" := by
  exact ⟨rfl, fun h => Except.noConfusion h⟩

/-- C6 amended: every wrapper catch block rethrows the caught error
unchanged, except `DynDb.init`, which catches the client-construction
failure, logs it, and returns normally leaving the stored client
unchanged (hence unset when none existed). -/
theorem C6_amended_catch_behaviour {ε κ ρ : Type} (e : ε) (err : String)
    (sendResult : Except ε ρ) (ddb : Option κ) (cache : SsmWrapper.Cache)
    (paramName : String) :
    S3Wrapper.createFileInBucket sendResult = sendResult
    ∧ S3Wrapper.createFileInBucket (Except.error e : Except ε ρ) = Except.error e
    ∧ (SsmWrapper.jsTruthy (SsmWrapper.cacheGet cache paramName) = false →
        SsmWrapper.getParam cache (Except.error err) paramName = Except.error err)
    ∧ DynDb.init ddb (Except.error e) = Except.ok ddb := by
  refine ⟨?_, rfl, ?_, ?_⟩
  · cases sendResult <;> rfl
  · intro h
    simp [SsmWrapper.getParam, h]
  · cases ddb <;> rfl

/-- Closed instance of `C6_amended_catch_behaviour`: the S3 put and the SSM
fetch rethrow their errors, while `DynDb.init` swallows its one. -/
theorem C6_amended_catch_behaviour_witness :
    S3Wrapper.createFileInBucket (Except.error "s3fail" : Except String String)
      = Except.error "s3fail"
    ∧ SsmWrapper.getParam [] (Except.error "ssmfail") "param" = Except.error "ssmfail"
    ∧ DynDb.init (none : Option Unit) (Except.error "ctorfail") = Except.ok none := by
  have h := C6_amended_catch_behaviour ("ctorfail" : String) "ssmfail"
    (Except.error "s3fail" : Except String String) (none : Option Unit) [] "param"
  exact ⟨h.1, h.2.2.1 (by decide), h.2.2.2⟩

/-- C8: `getItemByPK` returns `undefined` when the query yields no items,
throws when it yields more than one, and returns the single item with its
`PK` and `SK` attributes removed otherwise. -/
theorem C8_getItemByPK_cases (pkVal : String) (items : List DynDb.Item) :
    (items = [] → DynDb.getItemByPKResult pkVal items = Except.ok none)
    ∧ (items.length > 1 →
        ∃ msg, DynDb.getItemByPKResult pkVal items = Except.error msg)
    ∧ (∀ it, items = [it] →
        DynDb.getItemByPKResult pkVal items =
          Except.ok (some (DynDb.deleteKeyFromItem it))) := by
  refine ⟨?_, ?_, ?_⟩
  · rintro rfl
    rfl
  · intro h
    have hne : ¬(items.isEmpty = true) := by
      cases items with
      | nil => simp at h
      | cons a t => simp
    refine ⟨"Multiple items (" ++ toString items.length ++ ") found with PK '" ++ pkVal ++ "'", ?_⟩
    unfold DynDb.getItemByPKResult
    rw [if_neg hne, if_pos h]
  · rintro it rfl
    simp [DynDb.getItemByPKResult]

/-- Closed instance of `C8_getItemByPK_cases` exercising all three
branches. -/
theorem C8_getItemByPK_cases_witness :
    DynDb.getItemByPKResult "p" [] = Except.ok none
    ∧ (∃ msg, DynDb.getItemByPKResult "p" [[("PK", "p")], [("PK", "p")]] = Except.error msg)
    ∧ DynDb.getItemByPKResult "p" [[("PK", "p"), ("a", "1")]] =
        Except.ok (some [("a", "1")]) := by
  refine ⟨(C8_getItemByPK_cases "p" []).1 rfl,
    (C8_getItemByPK_cases "p" [[("PK", "p")], [("PK", "p")]]).2.1 (by decide), ?_⟩
  have h := (C8_getItemByPK_cases "p" [[("PK", "p"), ("a", "1")]]).2.2
    [("PK", "p"), ("a", "1")] rfl
  rw [h, show DynDb.deleteKeyFromItem [("PK", "p"), ("a", "1")] = [("a", "1")] from by decide]

/-- C3: `writeMessageBatchToFifoQueue` splits the message list into
consecutive chunks of at most 10 messages (every chunk except possibly the
last of exactly 10), sends exactly one batch command per chunk in list
order, the concatenation of the sent message bodies in send order equals
the original message bodies, and within each command the entries carry the
ids `msg-0`, `msg-1`, ... in order. -/
theorem C3_fifo_batch_chunking (queueUrl : String)
    (messages : List SqsWrapper.MessageAndGroupId) :
    (∀ c ∈ SqsWrapper.chunk 10 messages, c.length ≤ 10)
    ∧ (∀ c ∈ (SqsWrapper.chunk 10 messages).dropLast, c.length = 10)
    ∧ (SqsWrapper.chunk 10 messages).flatten = messages
    ∧ (SqsWrapper.writeMessageBatchToFifoQueue queueUrl messages).length =
        (SqsWrapper.chunk 10 messages).length
    ∧ (SqsWrapper.writeMessageBatchToFifoQueue queueUrl messages).map
        (fun cmd => cmd.entries.map (fun en => en.messageBody)) =
        (SqsWrapper.chunk 10 messages).map (fun c => c.map (fun m => m.message))
    ∧ ((SqsWrapper.writeMessageBatchToFifoQueue queueUrl messages).map
        (fun cmd => cmd.entries.map (fun en => en.messageBody))).flatten =
        messages.map (fun m => m.message)
    ∧ (∀ cmd ∈ SqsWrapper.writeMessageBatchToFifoQueue queueUrl messages,
        ∀ j (hj : j < cmd.entries.length),
          (cmd.entries.get ⟨j, hj⟩).entryId = "msg-" ++ toString j) := by
  have hbodies : (SqsWrapper.writeMessageBatchToFifoQueue queueUrl messages).map
      (fun cmd => cmd.entries.map (fun en => en.messageBody)) =
      (SqsWrapper.chunk 10 messages).map (fun c => c.map (fun m => m.message)) := by
    unfold SqsWrapper.writeMessageBatchToFifoQueue
    rw [List.map_map]
    exact List.map_congr_left (fun c _ => batchEntries_bodies c)
  refine ⟨chunk_length_le 10 messages, chunk_dropLast_full 10 (by omega) messages,
    chunk_flatten 10 (by omega) messages, ?_, hbodies, ?_, ?_⟩
  · unfold SqsWrapper.writeMessageBatchToFifoQueue
    rw [List.length_map]
  · rw [hbodies, ← List.map_flatten, chunk_flatten 10 (by omega)]
  · intro cmd hcmd j hj
    unfold SqsWrapper.writeMessageBatchToFifoQueue at hcmd
    rcases List.mem_map.mp hcmd with ⟨c, _, rfl⟩
    rw [List.get_eq_getElem]
    show (SqsWrapper.batchEntries c)[j].entryId = _
    unfold SqsWrapper.batchEntries
    rw [List.getElem_map, List.getElem_enum]

/-- Closed instance of `C3_fifo_batch_chunking`: eleven messages are sent
as a full chunk of ten followed by a chunk of one, with ids restarting at
`msg-0` in each chunk. -/
theorem C3_fifo_batch_chunking_witness :
    ((SqsWrapper.chunk 10 (List.replicate 11
        ({ groupId := "g", message := "m" } : SqsWrapper.MessageAndGroupId))).dropLast.all
      (fun c => c.length = 10))
    ∧ ((SqsWrapper.writeMessageBatchToFifoQueue "q" (List.replicate 11
        ({ groupId := "g", message := "m" } : SqsWrapper.MessageAndGroupId))).map
        (fun cmd => cmd.entries.map (fun en => en.messageBody))).flatten =
        List.replicate 11 "m"
    ∧ ((SqsWrapper.writeMessageBatchToFifoQueue "q" [
        ({ groupId := "g", message := "a" } : SqsWrapper.MessageAndGroupId),
        { groupId := "g", message := "b" }]).head?.map
          (fun cmd => cmd.entries.map (fun en => en.entryId))) =
        some ["msg-0", "msg-1"] := by
  have h := C3_fifo_batch_chunking "q" (List.replicate 11
    ({ groupId := "g", message := "m" } : SqsWrapper.MessageAndGroupId))
  refine ⟨?_, ?_, ?_⟩
  · rw [List.all_eq_true]
    intro c hc
    have := h.2.1 c hc
    simp [this]
  · rw [h.2.2.2.2.2.1]
    decide
  · have h2 := (C3_fifo_batch_chunking "q" [
      ({ groupId := "g", message := "a" } : SqsWrapper.MessageAndGroupId),
      { groupId := "g", message := "b" }]).2.2.2.2.2.2
    have hcmds : SqsWrapper.writeMessageBatchToFifoQueue "q" [
        ({ groupId := "g", message := "a" } : SqsWrapper.MessageAndGroupId),
        { groupId := "g", message := "b" }] =
        [{ entries := [
            { entryId := "msg-0", messageBody := "a", messageGroupId := "g" },
            { entryId := "msg-1", messageBody := "b", messageGroupId := "g" }],
           queueUrl := "q" }] := by decide
    have h0 := h2
      ({ entries := [
           { entryId := "msg-0", messageBody := "a", messageGroupId := "g" },
           { entryId := "msg-1", messageBody := "b", messageGroupId := "g" }],
         queueUrl := "q" } : SqsWrapper.BatchCommand)
      (by rw [hcmds]; exact List.mem_cons_self _ _) 0 (by decide)
    have h1 := h2
      ({ entries := [
           { entryId := "msg-0", messageBody := "a", messageGroupId := "g" },
           { entryId := "msg-1", messageBody := "b", messageGroupId := "g" }],
         queueUrl := "q" } : SqsWrapper.BatchCommand)
      (by rw [hcmds]; exact List.mem_cons_self _ _) 1 (by decide)
    rw [hcmds]
    simp only [List.head?_cons]
    show some (List.map (fun en => en.entryId) [
        ({ entryId := "msg-0", messageBody := "a", messageGroupId := "g" } : SqsWrapper.BatchEntry),
        { entryId := "msg-1", messageBody := "b", messageGroupId := "g" }]) =
      some ["msg-0", "msg-1"]
    have e0 : ("msg-0" : String) = "msg-" ++ toString 0 := by decide
    have e1 : ("msg-1" : String) = "msg-" ++ toString 1 := by decide
    rw [e0, e1, ← h0, ← h1]
    rfl

/-- C5 as stated is false: a single invocation of
`writeMessageBatchToFifoQueue` with eleven messages issues two batch-send
requests, not one. -/
theorem C5_counterexample :
    (SqsWrapper.writeMessageBatchToFifoQueue "q" (List.replicate 11
        ({ groupId := "g", message := "m" } : SqsWrapper.MessageAndGroupId))).length = 2
    ∧ (SqsWrapper.writeMessageBatchToFifoQueue "q" (List.replicate 11
        ({ groupId := "g", message := "m" } : SqsWrapper.MessageAndGroupId))).length ≠ 1 := by
  exact ⟨by decide, by decide⟩

/-- C5 amended: every public wrapper operation performs exactly one
request/response call against the underlying SDK and returns or rethrows,
except that `writeMessageBatchToFifoQueue` sends one batch request per
10-message chunk (`⌈n/10⌉` requests for `n` messages, none for an empty
list), `getListOfFileKeys` sends one request per result page, and
`getParamValue` sends at most one request (none on a cache hit). -/
theorem C5_amended_request_counts (tableName pkVal skVal pkPref queueUrl message
      bucket contents filename contentType paramName : String)
    (key item : DynDb.Item) (keyVals : DynDb.PkSkRange)
    (pkType skType : DynDb.KeyType) (idx groupId encoding : Option String)
    (messages : List SqsWrapper.MessageAndGroupId)
    (cache : SsmWrapper.Cache) (fetch : Except String (Option String))
    (pages : List S3Wrapper.Page) (lastPage : S3Wrapper.Page) :
    (DynDb.putItemCommands tableName item).length = 1
    ∧ (DynDb.getItemCommands tableName key).length = 1
    ∧ (DynDb.deleteItemCommands tableName key).length = 1
    ∧ (DynDb.queryCommands (DynDb.getItemByPKCommand tableName pkVal)).length = 1
    ∧ (DynDb.queryCommands (DynDb.getItemsByPKCommand tableName pkVal)).length = 1
    ∧ (DynDb.queryCommands
        (DynDb.getItemsWithSKBeginningCommand tableName pkVal skVal)).length = 1
    ∧ (DynDb.queryCommands (DynDb.getItemsWithSKBetweenCommand tableName keyVals
        "PK" "SK" pkType skType idx)).length = 1
    ∧ (DynDb.queryCommands (DynDb.getItemBySKCommand tableName skVal)).length = 1
    ∧ (DynDb.queryCommands
        (DynDb.getAllByPKPrefixAndSKCommand tableName pkPref skVal)).length = 1
    ∧ (SqsWrapper.writeMessageToQueueCommands queueUrl message groupId).length = 1
    ∧ (SqsWrapper.writeMessageBatchToFifoQueue queueUrl messages).length =
        (messages.length + 9) / 10
    ∧ (S3Wrapper.createFileInBucketCommands bucket contents filename contentType
        encoding).length = 1
    ∧ (S3Wrapper.retrieveSortedFileListCommands bucket).length = 1
    ∧ (∀ v c k, SsmWrapper.getParam cache fetch paramName = Except.ok (v, c, k) → k ≤ 1)
    ∧ ((∀ p ∈ pages.dropLast, p.isTruncated = true) →
        pages.getLast? = some lastPage → lastPage.isTruncated = false →
        ∃ keys tokens, S3Wrapper.getListOfFileKeys pages = some (keys, tokens)
          ∧ tokens.length = pages.length) := by
  refine ⟨rfl, rfl, rfl, rfl, rfl, rfl, rfl, rfl, rfl, rfl, ?_, rfl, rfl, ?_, ?_⟩
  · unfold SqsWrapper.writeMessageBatchToFifoQueue
    rw [List.length_map, chunk_length_eq 10 (by omega)]
  · intro v c k hk
    rw [getParam_eq] at hk
    by_cases htr : SsmWrapper.jsTruthy (SsmWrapper.cacheGet cache paramName) = true
    · rw [if_pos htr] at hk
      simp at hk
      omega
    · rw [if_neg htr] at hk
      cases fetch with
      | error e => simp at hk
      | ok fetched =>
        simp at hk
        omega
  · intro htr hlast hfin
    refine ⟨_, _, listLoop_paginated pages none lastPage htr hlast hfin, ?_⟩
    have hne : pages ≠ [] := by
      intro h
      rw [h] at hlast
      simp at hlast
    rw [List.length_cons, List.length_map, List.length_dropLast]
    cases pages with
    | nil => exact absurd rfl hne
    | cons p rest => simp

/-- Closed instance of `C5_amended_request_counts`: a cache-hit parameter
read makes zero requests, and a two-page listing makes two requests. -/
theorem C5_amended_request_counts_witness :
    (0 : Nat) ≤ 1
    ∧ (∃ keys tokens,
        S3Wrapper.getListOfFileKeys [
          { isTruncated := true, nextContinuationToken := some "t1",
            contents := [{ key := some "a", lastModified := some 1 }] },
          { isTruncated := false, nextContinuationToken := none,
            contents := [{ key := some "b", lastModified := some 2 }] }] =
          some (keys, tokens)
        ∧ tokens.length = 2) := by
  have h := C5_amended_request_counts "t" "pk" "sk" "pref" "q" "m" "b" "c" "f" "ct" "p"
    [] [] { pkVal := "p", skValFrom := "a", skValTo := "b" } DynDb.KeyType.S
    DynDb.KeyType.S none none none []
    [("p", some "v")] (Except.error "boom")
    [{ isTruncated := true, nextContinuationToken := some "t1",
       contents := [{ key := some "a", lastModified := some 1 }] },
     { isTruncated := false, nextContinuationToken := none,
       contents := [{ key := some "b", lastModified := some 2 }] }]
    { isTruncated := false, nextContinuationToken := none,
      contents := [{ key := some "b", lastModified := some 2 }] }
  refine ⟨?_, ?_⟩
  · exact h.2.2.2.2.2.2.2.2.2.2.2.2.2.1 (some "v") [("p", some "v")] 0 (by rfl)
  · exact h.2.2.2.2.2.2.2.2.2.2.2.2.2.2 (by decide) (by rfl) (by rfl)

/-- C9: on a well-formed pagination sequence (every page except the last
truncated, the last not truncated) `getListOfFileKeys` terminates having
consumed every page, returns the keys of all pages in page order, and each
request after the first carries the continuation token of the previous
response, the loop ending at the first non-truncated response. -/
theorem C9_pagination_loop (pages : List S3Wrapper.Page) (lastPage : S3Wrapper.Page)
    (htrunc : ∀ p ∈ pages.dropLast, p.isTruncated = true)
    (hlast : pages.getLast? = some lastPage)
    (hfin : lastPage.isTruncated = false) :
    S3Wrapper.getListOfFileKeys pages =
      some ((pages.map S3Wrapper.pageKeys).flatten,
        none :: pages.dropLast.map (fun p => p.nextContinuationToken)) :=
  listLoop_paginated pages none lastPage htrunc hlast hfin

/-- Closed instance of `C9_pagination_loop`: a truncated page followed by a
final page yields both pages' keys and threads the continuation token
`t1` into the second request. -/
theorem C9_pagination_loop_witness :
    S3Wrapper.getListOfFileKeys [
      { isTruncated := true, nextContinuationToken := some "t1",
        contents := [{ key := some "a", lastModified := some 1 },
                     { key := none, lastModified := some 9 }] },
      { isTruncated := false, nextContinuationToken := none,
        contents := [{ key := some "b", lastModified := some 2 }] }] =
      some (["a", "b"], [none, some "t1"]) := by
  have h := C9_pagination_loop [
      { isTruncated := true, nextContinuationToken := some "t1",
        contents := [{ key := some "a", lastModified := some 1 },
                     { key := none, lastModified := some 9 }] },
      { isTruncated := false, nextContinuationToken := none,
        contents := [{ key := some "b", lastModified := some 2 }] }]
    { isTruncated := false, nextContinuationToken := none,
      contents := [{ key := some "b", lastModified := some 2 }] }
    (by decide) (by rfl) (by rfl)
  rw [h]
  rfl

/-- C7: `getParamValue` makes at most one SDK request per call: a truthy
cached value is returned with zero requests and the cache untouched, and
after a successful fetch of a non-empty value a second call for the same
name returns that value with zero further requests, whatever the SDK
would deliver then. -/
theorem C7_param_cache (cache : SsmWrapper.Cache)
    (fetch fetch2 : Except String (Option String)) (paramName v : String) :
    (SsmWrapper.jsTruthy (SsmWrapper.cacheGet cache paramName) = true →
      SsmWrapper.getParam cache fetch paramName =
        Except.ok (SsmWrapper.cacheGet cache paramName, cache, 0))
    ∧ (∀ res c k, SsmWrapper.getParam cache fetch paramName = Except.ok (res, c, k) →
        k ≤ 1)
    ∧ (∀ c1, SsmWrapper.getParam cache fetch paramName = Except.ok (some v, c1, 1) →
        v ≠ "" →
        SsmWrapper.getParam c1 fetch2 paramName = Except.ok (some v, c1, 0)) := by
  refine ⟨?_, ?_, ?_⟩
  · intro htr
    rw [getParam_eq, if_pos htr]
  · intro res c k hk
    rw [getParam_eq] at hk
    by_cases htr : SsmWrapper.jsTruthy (SsmWrapper.cacheGet cache paramName) = true
    · rw [if_pos htr] at hk
      simp at hk
      omega
    · rw [if_neg htr] at hk
      cases fetch with
      | error e => simp at hk
      | ok fetched =>
        simp at hk
        omega
  · intro c1 hk hv
    rw [getParam_eq] at hk
    by_cases htr : SsmWrapper.jsTruthy (SsmWrapper.cacheGet cache paramName) = true
    · rw [if_pos htr] at hk
      simp at hk
    · rw [if_neg htr] at hk
      cases fetch with
      | error e => simp at hk
      | ok fetched =>
        simp at hk
        obtain ⟨hf, hc⟩ := hk
        subst hf
        subst hc
        have hg : SsmWrapper.cacheGet
            (SsmWrapper.cacheSet cache paramName (some v)) paramName = some v := by
          simp [SsmWrapper.cacheGet, SsmWrapper.cacheSet, List.lookup]
        rw [getParam_eq, hg]
        have htv : SsmWrapper.jsTruthy (some v) = true := by
          simp [SsmWrapper.jsTruthy, hv]
        rw [if_pos htv]

/-- Closed instance of `C7_param_cache`: after the first call fetches and
caches `"v"`, a second call returns `"v"` with zero requests even though
the SDK would now fail. -/
theorem C7_param_cache_witness :
    SsmWrapper.getParam [] (Except.ok (some "v")) "p" =
      Except.ok (some "v", [("p", some "v")], 1)
    ∧ SsmWrapper.getParam [("p", some "v")] (Except.error "unavailable") "p" =
      Except.ok (some "v", [("p", some "v")], 0) := by
  have h3 := (C7_param_cache [] (Except.ok (some "v"))
    (Except.error "unavailable") "p" "v").2.2
  have hk : SsmWrapper.getParam [] (Except.ok (some "v")) "p" =
      Except.ok (some "v", [("p", some "v")], 1) := rfl
  exact ⟨hk, h3 [("p", some "v")] hk (by decide)⟩

/-- C10: `retrieveSortedFileList` returns the listed objects with every
object whose key is missing or contains `result_` removed, and (when the
remaining objects all carry a last-modified date) orders them by that
date, most recently modified first. -/
theorem C10_sorted_filtered_listing (contents : List S3Wrapper.S3Object) :
    ∃ out, S3Wrapper.retrieveSortedFileList (some contents) = some out
      ∧ out.Perm (contents.filter (S3Wrapper.filterResultsFiles "result_"))
      ∧ (∀ f ∈ out, ∃ k, f.key = some k ∧ S3Wrapper.jsIncludes k "result_" = false)
      ∧ ((∀ f ∈ contents, f.lastModified.isSome = true) →
          out.Pairwise S3Wrapper.laterOrEq) := by
  refine ⟨S3Wrapper.jsSort S3Wrapper.sortFilesByDate
      (contents.filter (S3Wrapper.filterResultsFiles "result_")), rfl,
    jsSort_perm _ _, ?_, ?_⟩
  · intro f hf
    have hfil : f ∈ contents.filter (S3Wrapper.filterResultsFiles "result_") :=
      (jsSort_perm _ _).subset hf
    have hkeep := List.of_mem_filter hfil
    unfold S3Wrapper.filterResultsFiles at hkeep
    cases hk : f.key with
    | none =>
      rw [hk] at hkeep
      simp at hkeep
    | some k =>
      rw [hk] at hkeep
      exact ⟨k, rfl, by simpa using hkeep⟩
  · intro hdates
    exact jsSort_pairwise _ (fun f hf => hdates f (List.mem_of_mem_filter hf))

/-- Closed instance of `C10_sorted_filtered_listing`: a listing with a
`result_` file and a key-less object returns only the two ordinary files,
most recently modified first. -/
theorem C10_sorted_filtered_listing_witness :
    S3Wrapper.retrieveSortedFileList (some [
      { key := some "b.txt", lastModified := some 1 },
      { key := some "result_2024", lastModified := some 5 },
      { key := some "a.txt", lastModified := some 3 },
      { key := none, lastModified := some 9 }]) =
      some [{ key := some "a.txt", lastModified := some 3 },
            { key := some "b.txt", lastModified := some 1 }]
    ∧ ([({ key := some "a.txt", lastModified := some 3 } : S3Wrapper.S3Object),
        { key := some "b.txt", lastModified := some 1 }]).Pairwise
        S3Wrapper.laterOrEq := by
  obtain ⟨out, hout, _, _, hsorted⟩ := C10_sorted_filtered_listing [
    { key := some "b.txt", lastModified := some 1 },
    { key := some "result_2024", lastModified := some 5 },
    { key := some "a.txt", lastModified := some 3 },
    { key := none, lastModified := some 9 }]
  have hconc : S3Wrapper.retrieveSortedFileList (some [
      { key := some "b.txt", lastModified := some 1 },
      { key := some "result_2024", lastModified := some 5 },
      { key := some "a.txt", lastModified := some 3 },
      { key := none, lastModified := some 9 }]) =
      some [{ key := some "a.txt", lastModified := some 3 },
            { key := some "b.txt", lastModified := some 1 }] := by decide
  have hout2 : out = [{ key := some "a.txt", lastModified := some 3 },
      { key := some "b.txt", lastModified := some 1 }] :=
    Option.some.inj (hout.symm.trans hconc)
  subst hout2
  exact ⟨hconc, hsorted (by decide)⟩
